import Mathlib

/-!
Verification of the capture coordinate resolution + screenshot caching
subsystem and the overlay window pool of the FrameSense repository
(`src-tauri/src/overlay/screenshot_cache.rs`,
`src-tauri/src/overlay/screen_capture.rs`,
`src-tauri/src/overlay/overlay_manager.rs`).

The Rust code is shallowly embedded: `i32` values are modelled as `Int`
and `u32`/`usize` values as `Nat`.  The two machine-arithmetic operations
that actually matter for the properties below are modelled explicitly:
the Rust cast `safe_x as u32` of a possibly negative `i32` (which wraps
modulo 2^32) and the `u32` subtraction `display.width - safe_x as u32`
(which in release builds wraps modulo 2^32 and in debug builds panics on
underflow).  All other casts (`display.width as i32` etc.) are exact for
values in the `i32` range; well-formedness predicates record that range
where a theorem needs it.  OS effects (screen enumeration, the pixel
read, PNG encoding) are supplied as explicit data: each screen carries
the outcome its `capture_area` / `to_png` calls would produce.
-/

namespace FrameSense

/-- Modulus of Rust `u32` arithmetic. -/
def u32Mod : Nat := 4294967296

/-- Rust cast `z as u32` of an `i32` value: wraps modulo 2^32
(`Int.emod` of a positive modulus is nonnegative, so `toNat` is exact). -/
def u32ofI32 (z : Int) : Nat := (z % (4294967296 : Int)).toNat

/-- Rust release-mode `u32` subtraction `a - b`: wraps modulo 2^32. -/
def u32sub (a b : Nat) : Nat := (a + u32Mod - b) % u32Mod

/-- True iff the `u32` subtraction `a - b` underflows.  In a debug build
this subtraction panics; in a release build it wraps. -/
def u32subUnderflows (a b : Nat) : Bool := decide (a < b)

/-- Structure `CaptureBounds` from `screen_capture.rs` (`x, y : i32`,
`width, height : u32`), the user-selected rectangle in overlay
(virtual-desktop) coordinates. -/
structure CaptureBounds where
  x : Int
  y : Int
  width : Nat
  height : Nat
deriving DecidableEq

/-- The `display_info` of one enumerated screen (`x, y : i32`,
`width, height : u32`). -/
structure DisplayInfo where
  x : Int
  y : Int
  width : Nat
  height : Nat
deriving DecidableEq

/-- Well-formedness of a display: all the coordinates the Rust code
forms from it (`display.x`, `display.x + display.width as i32`, ...)
are representable as `i32`, so the embedding's exact `Int` arithmetic
agrees with the machine arithmetic of the source. -/
def DisplayInfo.WF (d : DisplayInfo) : Prop :=
  -2147483648 ≤ d.x ∧ d.x + (d.width : Int) ≤ 2147483647 ∧
  -2147483648 ≤ d.y ∧ d.y + (d.height : Int) ≤ 2147483647

instance (d : DisplayInfo) : Decidable d.WF := by
  unfold DisplayInfo.WF
  infer_instance

/-- Structure `TotalScreenArea` from `screen_capture.rs`. -/
structure TotalScreenArea where
  width : Nat
  height : Nat
  min_x : Int
  min_y : Int
  max_x : Int
  max_y : Int
deriving DecidableEq

/-- Accumulator of the min/max fold in `get_total_screen_area`. -/
structure AreaAcc where
  min_x : Int
  min_y : Int
  max_x : Int
  max_y : Int
deriving DecidableEq

/-- One step of the fold in `get_total_screen_area` (lines 186-199 of
`screen_capture.rs`): update the running min of the origins and the
running max of the origin+size corners. -/
def areaStep (acc : AreaAcc) (d : DisplayInfo) : AreaAcc :=
  { min_x := min acc.min_x d.x
    min_y := min acc.min_y d.y
    max_x := max acc.max_x (d.x + (d.width : Int))
    max_y := max acc.max_y (d.y + (d.height : Int)) }

/-- Function `ScreenCapture::get_total_screen_area` (`screen_capture.rs` lines
174-215): fails when the screen list is empty, otherwise folds min/max
starting from `i32::MAX` / `i32::MIN` and casts the differences with
`as u32`. -/
def get_total_screen_area (screens : List DisplayInfo) : Except String TotalScreenArea :=
  if screens.isEmpty then
    .error "No screens found"
  else
    let acc := screens.foldl areaStep
      ⟨2147483647, 2147483647, -2147483648, -2147483648⟩
    .ok { width := u32ofI32 (acc.max_x - acc.min_x)
          height := u32ofI32 (acc.max_y - acc.min_y)
          min_x := acc.min_x
          min_y := acc.min_y
          max_x := acc.max_x
          max_y := acc.max_y }

/-- One enumerated screen together with the outcomes its OS calls would
produce: `captureErr` is the error of `screen.capture_area` (`none`
means the pixel read succeeds) and `encodeErr` the error of
`image.to_png` (`none` means encoding succeeds). -/
structure Screen where
  display : DisplayInfo
  captureErr : Option String
  encodeErr : Option String
deriving DecidableEq

/-- The overlap test of `capture_with_reused_buffer` (`screenshot_cache.rs`
lines 154-158): the capture area `[screen_x, screen_x+width) ×
[screen_y, screen_y+height)` meets the screen's half-open bounds. -/
def overlapsScreen (display : DisplayInfo) (bounds : CaptureBounds)
    (screen_x screen_y : Int) : Bool :=
  let screen_left := display.x
  let screen_top := display.y
  let screen_right := display.x + (display.width : Int)
  let screen_bottom := display.y + (display.height : Int)
  decide (screen_x < screen_right) &&
  decide (screen_x + (bounds.width : Int) > screen_left) &&
  decide (screen_y < screen_bottom) &&
  decide (screen_y + (bounds.height : Int) > screen_top)

/-- Result of the safety clamping of `capture_with_reused_buffer`
(`screenshot_cache.rs` lines 176-184). -/
structure ClampedRegion where
  safe_x : Int
  safe_y : Int
  safe_width : Nat
  safe_height : Nat
deriving DecidableEq

/-- The safety clamping of `capture_with_reused_buffer` (lines 166-184):
`relative = screen - screen_origin`,
`safe_x = relative_x.max(0).min(display.width as i32 - bounds.width as i32)`,
`safe_width = bounds.width.min(display.width - safe_x as u32)` (and the
same for `y`/`height`), with the `as u32` cast and the `u32` subtraction
modelled with their release-mode wrapping semantics. -/
def clampToScreen (display : DisplayInfo) (bounds : CaptureBounds)
    (screen_x screen_y : Int) : ClampedRegion :=
  let relative_x := screen_x - display.x
  let relative_y := screen_y - display.y
  let safe_x := min (max relative_x 0) ((display.width : Int) - (bounds.width : Int))
  let safe_y := min (max relative_y 0) ((display.height : Int) - (bounds.height : Int))
  let safe_width := min bounds.width (u32sub display.width (u32ofI32 safe_x))
  let safe_height := min bounds.height (u32sub display.height (u32ofI32 safe_y))
  ⟨safe_x, safe_y, safe_width, safe_height⟩

/-- True iff one of the two `u32` subtractions
`display.width - safe_x as u32` / `display.height - safe_y as u32` of
`capture_with_reused_buffer` (lines 183-184) underflows on its actual
operands (panicking in a debug build). -/
def clampUnderflows (display : DisplayInfo) (bounds : CaptureBounds)
    (screen_x screen_y : Int) : Bool :=
  let relative_x := screen_x - display.x
  let relative_y := screen_y - display.y
  let safe_x := min (max relative_x 0) ((display.width : Int) - (bounds.width : Int))
  let safe_y := min (max relative_y 0) ((display.height : Int) - (bounds.height : Int))
  u32subUnderflows display.width (u32ofI32 safe_x) ||
  u32subUnderflows display.height (u32ofI32 safe_y)

/-- The arguments of the successful `screen.capture_area(safe_x, safe_y,
safe_width, safe_height)` call: which display serviced the capture and
the clamped monitor-local region that was read.  The payload string the
source then returns is the base64 PNG of exactly this read. -/
structure CaptureCall where
  display : DisplayInfo
  safe_x : Int
  safe_y : Int
  safe_width : Nat
  safe_height : Nat
deriving DecidableEq

/-- Error message of `capture_with_reused_buffer` when the screen loop
finds no usable screen (`screenshot_cache.rs` line 241). -/
def noScreenMsg : String := "No screen contains the specified coordinates"

/-- The per-screen loop of `capture_with_reused_buffer` (lines 134-241):
skip a screen that does not overlap; on an overlapping screen clamp, skip
it when the clamped size drops below 10 on either axis (`continue`), and
also fall through to the next screen when the OS pixel read or the PNG
encoding fails (the source only prints the error and lets the loop
continue); when the loop exhausts the screens, fail with the generic
no-screen message. -/
def captureLoop (bounds : CaptureBounds) (screen_x screen_y : Int) :
    List Screen → Except String CaptureCall
  | [] => .error noScreenMsg
  | screen :: rest =>
    if overlapsScreen screen.display bounds screen_x screen_y then
      let c := clampToScreen screen.display bounds screen_x screen_y
      if c.safe_width < 10 || c.safe_height < 10 then
        captureLoop bounds screen_x screen_y rest
      else
        match screen.captureErr, screen.encodeErr with
        | none, none =>
          .ok ⟨screen.display, c.safe_x, c.safe_y, c.safe_width, c.safe_height⟩
        | _, _ => captureLoop bounds screen_x screen_y rest
    else
      captureLoop bounds screen_x screen_y rest

/-- Function `capture_single_screen_fallback` (`screenshot_cache.rs` lines
251-304): clamp the raw bounds directly against the first screen (no
coordinate translation) and surface distinct error messages for the
too-small, capture-failure and encode-failure cases. -/
def capture_single_screen_fallback (screens : List Screen) (bounds : CaptureBounds) :
    Except String CaptureCall :=
  match screens with
  | [] => .error "No screens available"
  | screen :: _ =>
    let screen_width := screen.display.width
    let screen_height := screen.display.height
    let safe_x := min (max bounds.x 0) ((screen_width : Int) - (bounds.width : Int))
    let safe_y := min (max bounds.y 0) ((screen_height : Int) - (bounds.height : Int))
    let safe_width := min bounds.width (u32sub screen_width (u32ofI32 safe_x))
    let safe_height := min bounds.height (u32sub screen_height (u32ofI32 safe_y))
    if safe_width < 10 || safe_height < 10 then
      .error ("Capture area too small after adjustment: " ++
        toString safe_width ++ "x" ++ toString safe_height)
    else
      match screen.captureErr with
      | some e => .error ("Screen capture failed: " ++ e)
      | none =>
        match screen.encodeErr with
        | some e => .error ("PNG encoding failed: " ++ e)
        | none => .ok ⟨screen.display, safe_x, safe_y, safe_width, safe_height⟩

/-- True iff one of the two `u32` subtractions of the fallback clamp
(`screenshot_cache.rs` lines 268-269) underflows on its actual
operands. -/
def fallbackClampUnderflows (display : DisplayInfo) (bounds : CaptureBounds) : Bool :=
  let safe_x := min (max bounds.x 0) ((display.width : Int) - (bounds.width : Int))
  let safe_y := min (max bounds.y 0) ((display.height : Int) - (bounds.height : Int))
  u32subUnderflows display.width (u32ofI32 safe_x) ||
  u32subUnderflows display.height (u32ofI32 safe_y)

/-- Function `capture_with_reused_buffer` (lines 93-249): compute the total
screen area; on failure (empty screen list) fall back to the
single-screen path, otherwise convert the overlay coordinates to
absolute screen coordinates (`screen = bounds + area.min`) and run the
per-screen loop. -/
def capture_with_reused_buffer (screens : List Screen) (bounds : CaptureBounds) :
    Except String CaptureCall :=
  match get_total_screen_area (screens.map (·.display)) with
  | .ok area =>
    let screen_x := bounds.x + area.min_x
    let screen_y := bounds.y + area.min_y
    captureLoop bounds screen_x screen_y screens
  | .error _ => capture_single_screen_fallback screens bounds

/-- Structure `BoundsKey` from `screenshot_cache.rs` (lines 6-23): the cache key,
all four rectangle fields compared structurally. -/
structure BoundsKey where
  x : Int
  y : Int
  width : Nat
  height : Nat
deriving DecidableEq

/-- Conversion `BoundsKey::from(bounds)`. -/
def boundsKeyOf (b : CaptureBounds) : BoundsKey := ⟨b.x, b.y, b.width, b.height⟩

/-- Structure `CachedCapture` (lines 25-30); `captured_at` is a logical timestamp
(seconds), standing in for `Instant`. -/
structure CachedCapture where
  data : String
  captured_at : Nat
  size_bytes : Nat
deriving DecidableEq

/-- The cache map, modelled as an association list with (invariantly)
unique keys; the list order is irrelevant to the source's `HashMap`
semantics because eviction sorts by `captured_at` before iterating. -/
abbrev Cache := List (BoundsKey × CachedCapture)

/-- Constant `max_cache_size = 50 * 1024 * 1024` (line 54). -/
def max_cache_size : Nat := 52428800

/-- Constant `cache_ttl = 30` seconds (line 55). -/
def cache_ttl : Nat := 30

/-- Function `get_total_cache_size` (lines 329-331). -/
def get_total_cache_size (cache : Cache) : Nat :=
  (cache.map (fun e => e.2.size_bytes)).sum

/-- Distinct-key relation between two cache entries; the cache list
satisfies `Pairwise keysNe` exactly when it represents a map, as the
source's `HashMap` always does. -/
def keysNe (a b : BoundsKey × CachedCapture) : Prop := a.1 ≠ b.1

instance : DecidableRel keysNe := fun a b => by
  unfold keysNe
  infer_instance

/-- Age order used by `evict_oldest_entries`'s
`sort_by_key(|(_, cached)| cached.captured_at)`. -/
def byAge (a b : BoundsKey × CachedCapture) : Prop :=
  a.2.captured_at ≤ b.2.captured_at

instance : DecidableRel byAge := fun a b => Nat.decLe a.2.captured_at b.2.captured_at

instance : IsTotal (BoundsKey × CachedCapture) byAge :=
  ⟨fun a b => Nat.le_total a.2.captured_at b.2.captured_at⟩

instance : IsTrans (BoundsKey × CachedCapture) byAge :=
  ⟨fun _ _ _ h h' => Nat.le_trans h h'⟩

/-- The entries sorted by `captured_at` ascending; a stable sort, like
Rust's `sort_by_key`. -/
def sortedByAge (cache : Cache) : Cache := List.insertionSort byAge cache

/-- The key-collection loop of `evict_oldest_entries` (lines 337-347):
walk the age-sorted entries, push every visited key and accumulate its
freed bytes, stopping as soon as the freed bytes reach `needed_space`. -/
def keysToEvict (needed_space : Nat) : Cache → Nat → List BoundsKey
  | [], _ => []
  | (key, cached) :: rest, freed =>
    key ::
      (if needed_space ≤ freed + cached.size_bytes then []
       else keysToEvict needed_space rest (freed + cached.size_bytes))

/-- Function `evict_oldest_entries` (lines 333-358): sort by `captured_at`,
collect the oldest keys until the freed bytes reach `needed_space` (or
the entries run out), then remove those keys from the map. -/
def evict_oldest_entries (cache : Cache) (needed_space : Nat) : Cache :=
  let keys := keysToEvict needed_space (sortedByAge cache) 0
  cache.filter (fun e => decide (e.1 ∉ keys))

/-- Insertion as in `HashMap::insert`: store the entry under `key`, replacing any
existing entry with that key. -/
def insertEntry (cache : Cache) (key : BoundsKey) (v : CachedCapture) : Cache :=
  (key, v) :: cache.filter (fun e => decide (e.1 ≠ key))

/-- Function `add_to_cache` (lines 306-327): if the new payload would push the
total over `max_cache_size`, evict the oldest entries for at least
`size` bytes, then insert the new entry timestamped `now`. -/
def add_to_cache (cache : Cache) (key : BoundsKey) (data : String) (now : Nat) : Cache :=
  let size := data.length
  let cache' :=
    if max_cache_size < get_total_cache_size cache + size then
      evict_oldest_entries cache size
    else cache
  insertEntry cache' key ⟨data, now, size⟩

/-- Whole-cache state of `ScreenshotCache`: the entry map plus the
timestamp of the cached screen-info snapshot (the snapshot's geometry
content is never consulted by the logic under verification, only its
age). -/
structure CacheState where
  cache : Cache
  screen_info_at : Option Nat
deriving DecidableEq

/-- Remove the entry stored under `key` (`HashMap::remove`). -/
def removeKey (cache : Cache) (key : BoundsKey) : Cache :=
  cache.filter (fun e => decide (e.1 ≠ key))

/-- Lookup as in `HashMap::get`: the entry stored under `key`, if any. -/
def lookup (cache : Cache) (key : BoundsKey) : Option CachedCapture :=
  (cache.find? (fun e => decide (e.1 = key))).map (·.2)

deriving instance DecidableEq for Except

/-- Result of one `capture_optimized` call: the returned payload or
error, the state after the call, and whether the call ran the underlying
OS capture (`capture_with_reused_buffer`). -/
structure CaptureStep where
  result : Except String String
  state : CacheState
  did_capture : Bool
deriving DecidableEq

/-- The capture half of `capture_optimized` (lines 76-90): refresh the
screen-info snapshot if absent or older than 60 seconds (propagating a
refresh failure with `?` before any capture is attempted), then run the
capture — whose outcome `capture_result` the environment supplies — and
on success store the payload in the cache. -/
def capture_fresh (st : CacheState) (key : BoundsKey) (now : Nat)
    (screen_info : Except String Unit) (capture_result : Except String String) :
    CaptureStep :=
  let needRefresh :=
    match st.screen_info_at with
    | none => true
    | some t => decide (60 < now - t)
  match needRefresh, screen_info with
  | true, .error e => ⟨.error e, st, false⟩
  | _, _ =>
    let st' :=
      if needRefresh then { st with screen_info_at := some now } else st
    match capture_result with
    | .ok image_data =>
      ⟨.ok image_data,
        { st' with cache := add_to_cache st'.cache key image_data now }, true⟩
    | .error e => ⟨.error e, st', true⟩

/-- Function `capture_optimized` (lines 59-91): exact-key lookup; a hit younger
than the 30-second TTL returns the cached payload with no OS work; an
expired hit is removed before the fresh capture is attempted; a miss
goes straight to the fresh capture. -/
def capture_optimized (st : CacheState) (bounds : CaptureBounds) (now : Nat)
    (screen_info : Except String Unit) (capture_result : Except String String) :
    CaptureStep :=
  let key := boundsKeyOf bounds
  match lookup st.cache key with
  | some cached =>
    if now - cached.captured_at < cache_ttl then
      ⟨.ok cached.data, st, false⟩
    else
      capture_fresh { st with cache := removeKey st.cache key } key now
        screen_info capture_result
  | none => capture_fresh st key now screen_info capture_result

/-- Structure `OverlayManager` (`overlay_manager.rs` lines 6-10): the stored
surface handle (an opaque window id here), the active flag and the
last-used timestamp. -/
structure OverlayManager where
  overlay_window : Option Nat
  is_active : Bool
  last_used : Option Nat
deriving DecidableEq

/-- Constructor `OverlayManager::new` (lines 13-19). -/
def OverlayManager.new : OverlayManager := ⟨none, false, none⟩

/-- One public overlay operation together with the outcome of the OS
primitive it invokes: for `show`, `prim_ok` is whether the underlying
`window.show()` (reuse path) or `create_react_overlay_once` (first-call
path) succeeds and `new_handle` is the handle a successful creation
would produce; for `hide`, `prim_ok` is whether `window.hide()`
succeeds.  `set_focus` failures are only logged by the source and do not
affect state. -/
inductive OverlayOp where
  | show (new_handle : Nat) (prim_ok : Bool) (now : Nat)
  | hide (prim_ok : Bool)
deriving DecidableEq

/-- Method `show_selection_overlay` (lines 21-47): reuse the stored surface if
there is one (re-show and mark active), otherwise create the surface
once and store it; on a primitive failure the `?` operator returns the
error before any field is written.  The second component reports whether
a new surface was created. -/
def show_selection_overlay (m : OverlayManager) (new_handle : Nat)
    (prim_ok : Bool) (now : Nat) : Except String OverlayManager × Bool :=
  match m.overlay_window with
  | some _ =>
    if prim_ok then
      (.ok { m with is_active := true, last_used := some now }, false)
    else
      (.error "Failed to show overlay", false)
  | none =>
    if prim_ok then
      (.ok { overlay_window := some new_handle, is_active := true,
             last_used := some now }, true)
    else
      (.error "Failed to create React overlay", false)

/-- Method `hide_overlay` (lines 49-58): hide the surface if one exists — the
handle is retained either way (hidden, not destroyed). -/
def hide_overlay (m : OverlayManager) (prim_ok : Bool) : Except String OverlayManager :=
  match m.overlay_window with
  | some _ =>
    if prim_ok then .ok { m with is_active := false }
    else .error "Failed to hide overlay"
  | none => .ok m

/-- One step of the overlay state machine: on an error the manager is
left as it was (the Rust methods return early before mutating).  The
second component reports whether the step created a new surface. -/
def overlayStep (m : OverlayManager) : OverlayOp → OverlayManager × Bool
  | .show h ok now =>
    match show_selection_overlay m h ok now with
    | (.ok m', created) => (m', created)
    | (.error _, _) => (m, false)
  | .hide ok =>
    match hide_overlay m ok with
    | .ok m' => (m', false)
    | .error _ => (m, false)

/-- Run a sequence of overlay operations, counting how many surfaces
were created along the way. -/
def runOverlay (m : OverlayManager) (created : Nat) : List OverlayOp → OverlayManager × Nat
  | [] => (m, created)
  | op :: rest =>
    let s := overlayStep m op
    runOverlay s.1 (created + if s.2 then 1 else 0) rest

/-! ## Arithmetic helper lemmas -/

lemma u32ofI32_toNat (z : Int) (h0 : 0 ≤ z) (h1 : z < 4294967296) :
    u32ofI32 z = z.toNat := by
  unfold u32ofI32
  rw [Int.emod_eq_of_lt h0 h1]

lemma u32ofI32_int (z : Int) (h0 : 0 ≤ z) (h1 : z < 4294967296) :
    (u32ofI32 z : Int) = z := by
  rw [u32ofI32_toNat z h0 h1]
  exact Int.toNat_of_nonneg h0

lemma u32sub_exact (a b : Nat) (hb : b ≤ a) (ha : a < 4294967296) :
    u32sub a b = a - b := by
  unfold u32sub u32Mod
  have h1 : a + 4294967296 - b = (a - b) + 4294967296 := by omega
  rw [h1, Nat.add_mod_right, Nat.mod_eq_of_lt (by omega)]

/-! ## Fold lemmas for the virtual-desktop bounding box -/

lemma foldl_min_le_init {α : Type} (f : α → Int) :
    ∀ (l : List α) (i : Int), l.foldl (fun m d => min m (f d)) i ≤ i
  | [], i => le_refl i
  | d :: l, i =>
    le_trans (foldl_min_le_init f l (min i (f d))) (min_le_left _ _)

lemma foldl_min_le_mem {α : Type} (f : α → Int) :
    ∀ (l : List α) (i : Int) (d : α), d ∈ l →
      l.foldl (fun m d => min m (f d)) i ≤ f d
  | d' :: l, i, d, h => by
    rcases List.mem_cons.mp h with h | h
    · subst h
      exact le_trans (foldl_min_le_init f l (min i (f d))) (min_le_right _ _)
    · exact foldl_min_le_mem f l (min i (f d')) d h

lemma foldl_min_cases {α : Type} (f : α → Int) :
    ∀ (l : List α) (i : Int),
      l.foldl (fun m d => min m (f d)) i = i ∨
        ∃ d ∈ l, l.foldl (fun m d => min m (f d)) i = f d
  | [], _ => .inl rfl
  | d :: l, i => by
    rcases foldl_min_cases f l (min i (f d)) with h | ⟨d', hd', h⟩
    · rcases min_cases i (f d) with ⟨he, _⟩ | ⟨he, _⟩
      · exact .inl (by rw [List.foldl_cons, h, he])
      · exact .inr ⟨d, List.mem_cons_self d l, by rw [List.foldl_cons, h, he]⟩
    · exact .inr ⟨d', List.mem_cons_of_mem d hd', h⟩

lemma foldl_max_init_le {α : Type} (f : α → Int) :
    ∀ (l : List α) (i : Int), i ≤ l.foldl (fun m d => max m (f d)) i
  | [], i => le_refl i
  | d :: l, i =>
    le_trans (le_max_left _ _) (foldl_max_init_le f l (max i (f d)))

lemma foldl_max_mem_le {α : Type} (f : α → Int) :
    ∀ (l : List α) (i : Int) (d : α), d ∈ l →
      f d ≤ l.foldl (fun m d => max m (f d)) i
  | d' :: l, i, d, h => by
    rcases List.mem_cons.mp h with h | h
    · subst h
      exact le_trans (le_max_right _ _) (foldl_max_init_le f l (max i (f d)))
    · exact foldl_max_mem_le f l (max i (f d')) d h

lemma foldl_max_cases {α : Type} (f : α → Int) :
    ∀ (l : List α) (i : Int),
      l.foldl (fun m d => max m (f d)) i = i ∨
        ∃ d ∈ l, l.foldl (fun m d => max m (f d)) i = f d
  | [], _ => .inl rfl
  | d :: l, i => by
    rcases foldl_max_cases f l (max i (f d)) with h | ⟨d', hd', h⟩
    · rcases max_cases i (f d) with ⟨he, _⟩ | ⟨he, _⟩
      · exact .inl (by rw [List.foldl_cons, h, he])
      · exact .inr ⟨d, List.mem_cons_self d l, by rw [List.foldl_cons, h, he]⟩
    · exact .inr ⟨d', List.mem_cons_of_mem d hd', h⟩

lemma areaFold_min_x : ∀ (l : List DisplayInfo) (a : AreaAcc),
    (l.foldl areaStep a).min_x = l.foldl (fun m d => min m d.x) a.min_x
  | [], _ => rfl
  | d :: l, a => areaFold_min_x l (areaStep a d)

lemma areaFold_min_y : ∀ (l : List DisplayInfo) (a : AreaAcc),
    (l.foldl areaStep a).min_y = l.foldl (fun m d => min m d.y) a.min_y
  | [], _ => rfl
  | d :: l, a => areaFold_min_y l (areaStep a d)

lemma areaFold_max_x : ∀ (l : List DisplayInfo) (a : AreaAcc),
    (l.foldl areaStep a).max_x =
      l.foldl (fun m d => max m (d.x + (d.width : Int))) a.max_x
  | [], _ => rfl
  | d :: l, a => areaFold_max_x l (areaStep a d)

lemma areaFold_max_y : ∀ (l : List DisplayInfo) (a : AreaAcc),
    (l.foldl areaStep a).max_y =
      l.foldl (fun m d => max m (d.y + (d.height : Int))) a.max_y
  | [], _ => rfl
  | d :: l, a => areaFold_max_y l (areaStep a d)

/-! ## C6: characterization of the virtual-desktop area -/

/-- C6: for every non-empty list of well-formed monitors,
`get_total_screen_area` returns an area whose `min` is the componentwise
minimum of the monitor origins, whose `max` is the componentwise maximum
of the monitor origin+size corners, and whose size satisfies
`max.x - min.x = width` and `max.y - min.y = height`; for the empty
monitor list it fails with the no-displays error and never returns a
degenerate area. -/
theorem total_area_characterization (screens : List DisplayInfo) (area : TotalScreenArea)
    (hne : screens ≠ []) (hwf : ∀ d ∈ screens, d.WF)
    (harea : get_total_screen_area screens = .ok area) :
    (∀ d ∈ screens, area.min_x ≤ d.x ∧ area.min_y ≤ d.y ∧
        d.x + (d.width : Int) ≤ area.max_x ∧ d.y + (d.height : Int) ≤ area.max_y) ∧
    (∃ d ∈ screens, area.min_x = d.x) ∧
    (∃ d ∈ screens, area.min_y = d.y) ∧
    (∃ d ∈ screens, area.max_x = d.x + (d.width : Int)) ∧
    (∃ d ∈ screens, area.max_y = d.y + (d.height : Int)) ∧
    area.max_x - area.min_x = (area.width : Int) ∧
    area.max_y - area.min_y = (area.height : Int) ∧
    get_total_screen_area [] = .error "No screens found" := by
  have hne' : screens.isEmpty = false := by
    cases screens with
    | nil => exact absurd rfl hne
    | cons d l => rfl
  unfold get_total_screen_area at harea
  rw [hne'] at harea
  simp only [Bool.false_eq_true, if_false, Except.ok.injEq] at harea
  subst harea
  dsimp only
  obtain ⟨d0, hd0⟩ := List.exists_mem_of_ne_nil screens hne
  have hminx : ∀ d ∈ screens,
      (screens.foldl areaStep ⟨2147483647, 2147483647, -2147483648, -2147483648⟩).min_x ≤ d.x := by
    intro d hd
    rw [areaFold_min_x]
    exact foldl_min_le_mem (fun d => d.x) screens _ d hd
  have hminy : ∀ d ∈ screens,
      (screens.foldl areaStep ⟨2147483647, 2147483647, -2147483648, -2147483648⟩).min_y ≤ d.y := by
    intro d hd
    rw [areaFold_min_y]
    exact foldl_min_le_mem (fun d => d.y) screens _ d hd
  have hmaxx : ∀ d ∈ screens, d.x + (d.width : Int) ≤
      (screens.foldl areaStep ⟨2147483647, 2147483647, -2147483648, -2147483648⟩).max_x := by
    intro d hd
    rw [areaFold_max_x]
    exact foldl_max_mem_le (fun d => d.x + (d.width : Int)) screens _ d hd
  have hmaxy : ∀ d ∈ screens, d.y + (d.height : Int) ≤
      (screens.foldl areaStep ⟨2147483647, 2147483647, -2147483648, -2147483648⟩).max_y := by
    intro d hd
    rw [areaFold_max_y]
    exact foldl_max_mem_le (fun d => d.y + (d.height : Int)) screens _ d hd
  refine ⟨fun d hd => ⟨hminx d hd, hminy d hd, hmaxx d hd, hmaxy d hd⟩, ?_, ?_, ?_, ?_, ?_, ?_, rfl⟩
  · rw [areaFold_min_x]
    rcases foldl_min_cases (fun d => d.x) screens 2147483647 with hc | ⟨d, hd, hc⟩
    · refine ⟨d0, hd0, le_antisymm ?_ ?_⟩
      · exact foldl_min_le_mem (fun d => d.x) screens _ d0 hd0
      · rw [hc]
        have := (hwf d0 hd0).2.1
        have : (0 : Int) ≤ (d0.width : Int) := Int.natCast_nonneg _
        omega
    · exact ⟨d, hd, hc⟩
  · rw [areaFold_min_y]
    rcases foldl_min_cases (fun d => d.y) screens 2147483647 with hc | ⟨d, hd, hc⟩
    · refine ⟨d0, hd0, le_antisymm ?_ ?_⟩
      · exact foldl_min_le_mem (fun d => d.y) screens _ d0 hd0
      · rw [hc]
        have := (hwf d0 hd0).2.2.2
        have : (0 : Int) ≤ (d0.height : Int) := Int.natCast_nonneg _
        omega
    · exact ⟨d, hd, hc⟩
  · rw [areaFold_max_x]
    rcases foldl_max_cases (fun d => d.x + (d.width : Int)) screens (-2147483648) with hc | ⟨d, hd, hc⟩
    · refine ⟨d0, hd0, le_antisymm ?_ ?_⟩
      · rw [hc]
        have := (hwf d0 hd0).1
        have : (0 : Int) ≤ (d0.width : Int) := Int.natCast_nonneg _
        omega
      · exact foldl_max_mem_le (fun d => d.x + (d.width : Int)) screens _ d0 hd0
    · exact ⟨d, hd, hc⟩
  · rw [areaFold_max_y]
    rcases foldl_max_cases (fun d => d.y + (d.height : Int)) screens (-2147483648) with hc | ⟨d, hd, hc⟩
    · refine ⟨d0, hd0, le_antisymm ?_ ?_⟩
      · rw [hc]
        have := (hwf d0 hd0).2.2.1
        have : (0 : Int) ≤ (d0.height : Int) := Int.natCast_nonneg _
        omega
      · exact foldl_max_mem_le (fun d => d.y + (d.height : Int)) screens _ d0 hd0
    · exact ⟨d, hd, hc⟩
  · have hlo : -2147483648 ≤
        (screens.foldl areaStep ⟨2147483647, 2147483647, -2147483648, -2147483648⟩).min_x := by
      rw [areaFold_min_x]
      rcases foldl_min_cases (fun d => d.x) screens 2147483647 with hc | ⟨d, hd, hc⟩
      · rw [hc]; omega
      · rw [hc]; exact (hwf d hd).1
    have hhi : (screens.foldl areaStep ⟨2147483647, 2147483647, -2147483648, -2147483648⟩).max_x
        ≤ 2147483647 := by
      rw [areaFold_max_x]
      rcases foldl_max_cases (fun d => d.x + (d.width : Int)) screens (-2147483648) with hc | ⟨d, hd, hc⟩
      · rw [hc]; omega
      · rw [hc]; exact (hwf d hd).2.1
    have hle : (screens.foldl areaStep ⟨2147483647, 2147483647, -2147483648, -2147483648⟩).min_x
        ≤ (screens.foldl areaStep ⟨2147483647, 2147483647, -2147483648, -2147483648⟩).max_x := by
      have h1 := hminx d0 hd0
      have h2 := hmaxx d0 hd0
      have : (0 : Int) ≤ (d0.width : Int) := Int.natCast_nonneg _
      omega
    exact (u32ofI32_int _ (by omega) (by omega)).symm
  · have hlo : -2147483648 ≤
        (screens.foldl areaStep ⟨2147483647, 2147483647, -2147483648, -2147483648⟩).min_y := by
      rw [areaFold_min_y]
      rcases foldl_min_cases (fun d => d.y) screens 2147483647 with hc | ⟨d, hd, hc⟩
      · rw [hc]; omega
      · rw [hc]; exact (hwf d hd).2.2.1
    have hhi : (screens.foldl areaStep ⟨2147483647, 2147483647, -2147483648, -2147483648⟩).max_y
        ≤ 2147483647 := by
      rw [areaFold_max_y]
      rcases foldl_max_cases (fun d => d.y + (d.height : Int)) screens (-2147483648) with hc | ⟨d, hd, hc⟩
      · rw [hc]; omega
      · rw [hc]; exact (hwf d hd).2.2.2
    have hle : (screens.foldl areaStep ⟨2147483647, 2147483647, -2147483648, -2147483648⟩).min_y
        ≤ (screens.foldl areaStep ⟨2147483647, 2147483647, -2147483648, -2147483648⟩).max_y := by
      have h1 := hminy d0 hd0
      have h2 := hmaxy d0 hd0
      have : (0 : Int) ≤ (d0.height : Int) := Int.natCast_nonneg _
      omega
    exact (u32ofI32_int _ (by omega) (by omega)).symm

/-- Witness for C6: the spec's side-by-side two-monitor scenario,
`total_area` = size 3840x1080 spanning (0,0) to (3840,1080). -/
theorem total_area_characterization_witness :
    (∀ d ∈ ([⟨0, 0, 1920, 1080⟩, ⟨1920, 0, 1920, 1080⟩] : List DisplayInfo),
        (0 : Int) ≤ d.x ∧ (0 : Int) ≤ d.y ∧
        d.x + (d.width : Int) ≤ 3840 ∧ d.y + (d.height : Int) ≤ 1080) ∧
    (∃ d ∈ ([⟨0, 0, 1920, 1080⟩, ⟨1920, 0, 1920, 1080⟩] : List DisplayInfo),
        (0 : Int) = d.x) ∧
    (∃ d ∈ ([⟨0, 0, 1920, 1080⟩, ⟨1920, 0, 1920, 1080⟩] : List DisplayInfo),
        (0 : Int) = d.y) ∧
    (∃ d ∈ ([⟨0, 0, 1920, 1080⟩, ⟨1920, 0, 1920, 1080⟩] : List DisplayInfo),
        (3840 : Int) = d.x + (d.width : Int)) ∧
    (∃ d ∈ ([⟨0, 0, 1920, 1080⟩, ⟨1920, 0, 1920, 1080⟩] : List DisplayInfo),
        (1080 : Int) = d.y + (d.height : Int)) ∧
    (3840 : Int) - 0 = ((3840 : Nat) : Int) ∧
    (1080 : Int) - 0 = ((1080 : Nat) : Int) ∧
    get_total_screen_area [] = .error "No screens found" :=
  total_area_characterization [⟨0, 0, 1920, 1080⟩, ⟨1920, 0, 1920, 1080⟩]
    ⟨3840, 1080, 0, 0, 3840, 1080⟩ (by decide) (by decide) (by decide)

/-! ## C2: the safety clamp underflows on oversized rectangles -/

/-- C2 (evidence for the code bug): on a 1920x1080 monitor at the
origin, the rectangle `(0, 0, 2000, 2000)` — whose width and height
exceed the monitor's — overlaps the monitor, yet both the multi-screen
clamp and the single-screen fallback clamp compute
`safe_x = relative_x.max(0).min(display.width as i32 - bounds.width as i32) = -80`,
so `safe_x as u32` wraps to `4294967216` and the `u32` subtraction
`display.width - safe_x as u32` underflows (a panic in debug builds, a
wrap in release builds), contradicting the spec's promise that malformed
selections never panic. -/
theorem clamp_underflows_on_oversized_rect :
    overlapsScreen ⟨0, 0, 1920, 1080⟩ ⟨0, 0, 2000, 2000⟩ 0 0 = true ∧
    clampUnderflows ⟨0, 0, 1920, 1080⟩ ⟨0, 0, 2000, 2000⟩ 0 0 = true ∧
    fallbackClampUnderflows ⟨0, 0, 1920, 1080⟩ ⟨0, 0, 2000, 2000⟩ = true := by
  refine ⟨by decide, by decide, by decide⟩

/-! ## C1: containment of the resolved capture region -/

/-- Counterexample to C1 as stated: for the positive-size rectangle
`(0, 0, 2000, 2000)` on a single 1920x1080 monitor, coordinate
resolution neither fails nor stays inside the monitor: under the
release-mode wrapping semantics of the clamp it succeeds with
`safe_x = -80`, `safe_y = -920` and size `2000x2000`, a region that
extends outside the selected monitor on all four sides (in a debug
build the same input panics instead of returning at all). -/
theorem resolve_escapes_monitor_counterexample :
    capture_with_reused_buffer [⟨⟨0, 0, 1920, 1080⟩, none, none⟩] ⟨0, 0, 2000, 2000⟩ =
      .ok ⟨⟨0, 0, 1920, 1080⟩, -80, -920, 2000, 2000⟩ ∧
    ((-80 : Int) < 0 ∧ (1920 : Nat) < 2000) := by
  refine ⟨by decide, by decide, by decide⟩

lemma captureLoop_skip_no_overlap (bounds : CaptureBounds) (sx sy : Int)
    (s : Screen) (rest : List Screen)
    (hov : overlapsScreen s.display bounds sx sy = false) :
    captureLoop bounds sx sy (s :: rest) = captureLoop bounds sx sy rest := by
  conv_lhs => unfold captureLoop
  simp [hov]

lemma captureLoop_skip_small (bounds : CaptureBounds) (sx sy : Int)
    (s : Screen) (rest : List Screen)
    (hov : overlapsScreen s.display bounds sx sy = true)
    (hsmall : (clampToScreen s.display bounds sx sy).safe_width < 10 ∨
      (clampToScreen s.display bounds sx sy).safe_height < 10) :
    captureLoop bounds sx sy (s :: rest) = captureLoop bounds sx sy rest := by
  have hb : (decide ((clampToScreen s.display bounds sx sy).safe_width < 10) ||
      decide ((clampToScreen s.display bounds sx sy).safe_height < 10)) = true := by
    rcases hsmall with h | h <;> simp [h]
  conv_lhs => unfold captureLoop
  simp only [hov, if_true]
  rw [if_pos hb]

lemma captureLoop_skip_os_failure (bounds : CaptureBounds) (sx sy : Int)
    (s : Screen) (rest : List Screen)
    (hov : overlapsScreen s.display bounds sx sy = true)
    (hbig : ¬((clampToScreen s.display bounds sx sy).safe_width < 10 ∨
      (clampToScreen s.display bounds sx sy).safe_height < 10))
    (hfail : ¬(s.captureErr = none ∧ s.encodeErr = none)) :
    captureLoop bounds sx sy (s :: rest) = captureLoop bounds sx sy rest := by
  have hb : (decide ((clampToScreen s.display bounds sx sy).safe_width < 10) ||
      decide ((clampToScreen s.display bounds sx sy).safe_height < 10)) = false := by
    simp only [not_or] at hbig
    simp [hbig.1, hbig.2]
  conv_lhs => unfold captureLoop
  simp only [hov, if_true]
  rw [if_neg (by rw [hb]; exact Bool.false_ne_true)]
  rcases hce : s.captureErr with _ | e <;> rcases hee : s.encodeErr with _ | e'
  · exact absurd ⟨hce, hee⟩ hfail
  all_goals rfl

lemma captureLoop_first_usable (bounds : CaptureBounds) (sx sy : Int)
    (s : Screen) (rest : List Screen)
    (hov : overlapsScreen s.display bounds sx sy = true)
    (hbig : ¬((clampToScreen s.display bounds sx sy).safe_width < 10 ∨
      (clampToScreen s.display bounds sx sy).safe_height < 10))
    (hce : s.captureErr = none) (hee : s.encodeErr = none) :
    captureLoop bounds sx sy (s :: rest) =
      .ok ⟨s.display,
        (clampToScreen s.display bounds sx sy).safe_x,
        (clampToScreen s.display bounds sx sy).safe_y,
        (clampToScreen s.display bounds sx sy).safe_width,
        (clampToScreen s.display bounds sx sy).safe_height⟩ := by
  have hb : (decide ((clampToScreen s.display bounds sx sy).safe_width < 10) ||
      decide ((clampToScreen s.display bounds sx sy).safe_height < 10)) = false := by
    simp only [not_or] at hbig
    simp [hbig.1, hbig.2]
  conv_lhs => unfold captureLoop
  simp only [hov, if_true]
  rw [if_neg (by rw [hb]; exact Bool.false_ne_true), hce, hee]

lemma clampToScreen_contained (d : DisplayInfo) (bounds : CaptureBounds)
    (sx sy : Int)
    (hW : bounds.width ≤ d.width) (hH : bounds.height ≤ d.height)
    (hw32 : d.width < 4294967296) (hh32 : d.height < 4294967296) :
    0 ≤ (clampToScreen d bounds sx sy).safe_x ∧
    (clampToScreen d bounds sx sy).safe_x +
      ((clampToScreen d bounds sx sy).safe_width : Int) ≤ (d.width : Int) ∧
    0 ≤ (clampToScreen d bounds sx sy).safe_y ∧
    (clampToScreen d bounds sx sy).safe_y +
      ((clampToScreen d bounds sx sy).safe_height : Int) ≤ (d.height : Int) := by
  rw [clampToScreen]
  dsimp only
  set fx := min (max (sx - d.x) 0) ((d.width : Int) - (bounds.width : Int)) with hfx
  set fy := min (max (sy - d.y) 0) ((d.height : Int) - (bounds.height : Int)) with hfy
  have hWi : (bounds.width : Int) ≤ (d.width : Int) := by exact_mod_cast hW
  have hHi : (bounds.height : Int) ≤ (d.height : Int) := by exact_mod_cast hH
  have hx0 : 0 ≤ fx := le_min (le_max_right _ _) (by omega)
  have hxle : fx ≤ (d.width : Int) - (bounds.width : Int) := min_le_right _ _
  have hy0 : 0 ≤ fy := le_min (le_max_right _ _) (by omega)
  have hyle : fy ≤ (d.height : Int) - (bounds.height : Int) := min_le_right _ _
  have hxt : (fx.toNat : Int) = fx := Int.toNat_of_nonneg hx0
  have hyt : (fy.toNat : Int) = fy := Int.toNat_of_nonneg hy0
  rw [u32ofI32_toNat fx hx0 (by omega), u32ofI32_toNat fy hy0 (by omega),
    u32sub_exact d.width fx.toNat (by omega) hw32,
    u32sub_exact d.height fy.toNat (by omega) hh32,
    Nat.min_eq_left (by omega : bounds.width ≤ d.width - fx.toNat),
    Nat.min_eq_left (by omega : bounds.height ≤ d.height - fy.toNat)]
  omega

lemma captureLoop_ok_contained
    (bounds : CaptureBounds) (screen_x screen_y : Int) (c : CaptureCall) :
    ∀ screens : List Screen,
      captureLoop bounds screen_x screen_y screens = .ok c →
      bounds.width ≤ c.display.width → bounds.height ≤ c.display.height →
      c.display.width < 4294967296 → c.display.height < 4294967296 →
      0 ≤ c.safe_x ∧ c.safe_x + (c.safe_width : Int) ≤ (c.display.width : Int) ∧
      0 ≤ c.safe_y ∧ c.safe_y + (c.safe_height : Int) ≤ (c.display.height : Int)
  | [] => by
    intro h
    exact absurd h (by simp [captureLoop])
  | s :: rest => by
    intro h hW hH hw32 hh32
    by_cases hov : overlapsScreen s.display bounds screen_x screen_y = true
    · by_cases hsmall : (clampToScreen s.display bounds screen_x screen_y).safe_width < 10 ∨
          (clampToScreen s.display bounds screen_x screen_y).safe_height < 10
      · rw [captureLoop_skip_small bounds screen_x screen_y s rest hov hsmall] at h
        exact captureLoop_ok_contained bounds screen_x screen_y c rest h hW hH hw32 hh32
      · by_cases hosok : s.captureErr = none ∧ s.encodeErr = none
        · rw [captureLoop_first_usable bounds screen_x screen_y s rest hov hsmall
            hosok.1 hosok.2, Except.ok.injEq] at h
          subst h
          exact clampToScreen_contained s.display bounds screen_x screen_y hW hH hw32 hh32
        · rw [captureLoop_skip_os_failure bounds screen_x screen_y s rest hov hsmall hosok] at h
          exact captureLoop_ok_contained bounds screen_x screen_y c rest h hW hH hw32 hh32
    · rw [captureLoop_skip_no_overlap bounds screen_x screen_y s rest
        (Bool.not_eq_true _ ▸ hov)] at h
      exact captureLoop_ok_contained bounds screen_x screen_y c rest h hW hH hw32 hh32

/-- C1, amended: coordinate resolution either fails with an error or
returns a region fully inside the monitor it selected, PROVIDED the
requested width and height do not exceed that monitor's width and
height (the counterexample above shows the proviso is necessary: an
oversized request makes the clamp underflow and the region escapes the
monitor instead of being rejected). -/
theorem resolve_contained_when_rect_fits
    (screens : List Screen) (bounds : CaptureBounds) (c : CaptureCall)
    (h : capture_with_reused_buffer screens bounds = .ok c)
    (hW : bounds.width ≤ c.display.width) (hH : bounds.height ≤ c.display.height)
    (hw32 : c.display.width < 4294967296) (hh32 : c.display.height < 4294967296) :
    0 ≤ c.safe_x ∧ c.safe_x + (c.safe_width : Int) ≤ (c.display.width : Int) ∧
    0 ≤ c.safe_y ∧ c.safe_y + (c.safe_height : Int) ≤ (c.display.height : Int) := by
  unfold capture_with_reused_buffer at h
  split at h
  · exact captureLoop_ok_contained bounds _ _ c screens h hW hH hw32 hh32
  · rename_i e herr
    cases screens with
    | nil => exact absurd h (by simp [capture_single_screen_fallback])
    | cons s rest =>
      exact absurd herr (by simp [get_total_screen_area])

/-- Witness for the amended C1: the spec's clamp scenario — a 200x200
rectangle at (750,550) on a single 800x600 monitor resolves to the
monitor-local region (600,400,200,200), which is fully contained. -/
theorem resolve_contained_when_rect_fits_witness :
    (0 : Int) ≤ 600 ∧ (600 : Int) + ((200 : Nat) : Int) ≤ ((800 : Nat) : Int) ∧
    (0 : Int) ≤ 400 ∧ (400 : Int) + ((200 : Nat) : Int) ≤ ((600 : Nat) : Int) :=
  resolve_contained_when_rect_fits [⟨⟨0, 0, 800, 600⟩, none, none⟩]
    ⟨750, 550, 200, 200⟩ ⟨⟨0, 0, 800, 600⟩, 600, 400, 200, 200⟩
    (by decide) (by decide) (by decide) (by decide) (by decide)

/-! ## C5: absolute conversion, first-overlap selection, translation -/

/-- C5: coordinate resolution (i) converts the rectangle to absolute
coordinates by adding the virtual-desktop minimum,
(ii) tests overlap as an open-interval intersection on both axes,
(iii) skips non-overlapping monitors, and (iv) on the first overlapping
monitor that is usable returns that monitor (regardless of any later
monitors that might also overlap), translating into its local space as
`relative = absolute - monitor.origin` before clamping. -/
theorem resolution_selects_first_overlapping_monitor :
    (∀ (screens : List Screen) (bounds : CaptureBounds) (area : TotalScreenArea),
      get_total_screen_area (screens.map (·.display)) = .ok area →
      capture_with_reused_buffer screens bounds =
        captureLoop bounds (bounds.x + area.min_x) (bounds.y + area.min_y) screens) ∧
    (∀ (d : DisplayInfo) (bounds : CaptureBounds) (sx sy : Int),
      overlapsScreen d bounds sx sy = true ↔
        (sx < d.x + (d.width : Int) ∧ d.x < sx + (bounds.width : Int) ∧
         sy < d.y + (d.height : Int) ∧ d.y < sy + (bounds.height : Int))) ∧
    (∀ (s : Screen) (rest : List Screen) (bounds : CaptureBounds) (sx sy : Int),
      overlapsScreen s.display bounds sx sy = false →
      captureLoop bounds sx sy (s :: rest) = captureLoop bounds sx sy rest) ∧
    (∀ (s : Screen) (rest : List Screen) (bounds : CaptureBounds) (sx sy : Int),
      overlapsScreen s.display bounds sx sy = true →
      ¬((clampToScreen s.display bounds sx sy).safe_width < 10 ∨
        (clampToScreen s.display bounds sx sy).safe_height < 10) →
      s.captureErr = none → s.encodeErr = none →
      captureLoop bounds sx sy (s :: rest) =
        .ok ⟨s.display,
          min (max (sx - s.display.x) 0) ((s.display.width : Int) - (bounds.width : Int)),
          min (max (sy - s.display.y) 0) ((s.display.height : Int) - (bounds.height : Int)),
          (clampToScreen s.display bounds sx sy).safe_width,
          (clampToScreen s.display bounds sx sy).safe_height⟩) := by
  refine ⟨?_, ?_, fun s rest bounds sx sy h =>
    captureLoop_skip_no_overlap bounds sx sy s rest h, ?_⟩
  · intro screens bounds area harea
    unfold capture_with_reused_buffer
    rw [harea]
  · intro d bounds sx sy
    unfold overlapsScreen
    simp only [Bool.and_eq_true, decide_eq_true_eq, gt_iff_lt]
    constructor
    · rintro ⟨⟨⟨h1, h2⟩, h3⟩, h4⟩
      exact ⟨h1, h2, h3, h4⟩
    · rintro ⟨h1, h2, h3, h4⟩
      exact ⟨⟨⟨h1, h2⟩, h3⟩, h4⟩
  · intro s rest bounds sx sy hov hbig hce hee
    rw [captureLoop_first_usable bounds sx sy s rest hov hbig hce hee]
    rfl

/-- Witness for C5: the spec's two-monitor scenario — the rectangle at
overlay x = 1920 is serviced by the second monitor (the first does not
overlap) at local coordinates (0,0). -/
theorem resolution_selects_first_overlapping_monitor_witness :
    capture_with_reused_buffer
        [⟨⟨0, 0, 1920, 1080⟩, none, none⟩, ⟨⟨1920, 0, 1920, 1080⟩, none, none⟩]
        ⟨1920, 0, 100, 100⟩ =
      captureLoop ⟨1920, 0, 100, 100⟩ (1920 + 0) (0 + 0)
        [⟨⟨0, 0, 1920, 1080⟩, none, none⟩, ⟨⟨1920, 0, 1920, 1080⟩, none, none⟩] ∧
    overlapsScreen ⟨0, 0, 1920, 1080⟩ ⟨1920, 0, 100, 100⟩ 1920 0 = false ∧
    captureLoop ⟨1920, 0, 100, 100⟩ 1920 0
        [⟨⟨1920, 0, 1920, 1080⟩, none, none⟩] =
      .ok ⟨⟨1920, 0, 1920, 1080⟩,
        min (max ((1920 : Int) - 1920) 0) (((1920 : Nat) : Int) - ((100 : Nat) : Int)),
        min (max ((0 : Int) - 0) 0) (((1080 : Nat) : Int) - ((100 : Nat) : Int)),
        (clampToScreen ⟨1920, 0, 1920, 1080⟩ ⟨1920, 0, 100, 100⟩ 1920 0).safe_width,
        (clampToScreen ⟨1920, 0, 1920, 1080⟩ ⟨1920, 0, 100, 100⟩ 1920 0).safe_height⟩ :=
  ⟨resolution_selects_first_overlapping_monitor.1
      [⟨⟨0, 0, 1920, 1080⟩, none, none⟩, ⟨⟨1920, 0, 1920, 1080⟩, none, none⟩]
      ⟨1920, 0, 100, 100⟩ ⟨3840, 1080, 0, 0, 3840, 1080⟩ (by decide),
   by decide,
   resolution_selects_first_overlapping_monitor.2.2.2
      ⟨⟨1920, 0, 1920, 1080⟩, none, none⟩ [] ⟨1920, 0, 100, 100⟩ 1920 0
      (by decide) (by decide) rfl rfl⟩

/-! ## C7: the 10-pixel minimum-size floor -/

/-- C7: when the clamped width or height on an overlapping monitor falls
below the 10-pixel floor, the loop skips that monitor and continues
with the remaining monitors; in particular, when that monitor was the
only candidate, the capture fails with an error instead of returning a
degenerate region. -/
theorem too_small_after_clamp_skips_monitor
    (s : Screen) (bounds : CaptureBounds) (sx sy : Int)
    (hov : overlapsScreen s.display bounds sx sy = true)
    (hsmall : (clampToScreen s.display bounds sx sy).safe_width < 10 ∨
      (clampToScreen s.display bounds sx sy).safe_height < 10) :
    (∀ rest : List Screen,
      captureLoop bounds sx sy (s :: rest) = captureLoop bounds sx sy rest) ∧
    captureLoop bounds sx sy [s] = .error noScreenMsg := by
  refine ⟨fun rest => captureLoop_skip_small bounds sx sy s rest hov hsmall, ?_⟩
  rw [captureLoop_skip_small bounds sx sy s [] hov hsmall]
  rfl

/-- Witness for C7: the spec's scenario — a 5x5 rectangle on the only
overlapping monitor is skipped by the minimum-size check and the capture
fails with the no-screen error. -/
theorem too_small_after_clamp_skips_monitor_witness :
    captureLoop ⟨0, 0, 5, 5⟩ 0 0 [⟨⟨0, 0, 800, 600⟩, none, none⟩] =
      .error noScreenMsg :=
  (too_small_after_clamp_skips_monitor ⟨⟨0, 0, 800, 600⟩, none, none⟩
    ⟨0, 0, 5, 5⟩ 0 0 (by decide) (by decide)).2

/-! ## C8: OS-read and encode failures are not distinguishable -/

/-- Counterexample to C8 as stated: an OS-level screen-read failure on
the selected monitor does NOT surface as a distinct backend-failure
error.  A failing pixel read on the only (overlapping) monitor and a
rectangle overlapping no monitor at all both return the very same error
value, the generic no-screen message, so the two cases cannot be told
apart by the caller. -/
theorem backend_failure_indistinguishable_counterexample :
    capture_with_reused_buffer [⟨⟨0, 0, 1920, 1080⟩, some "os read failed", none⟩]
        ⟨0, 0, 100, 100⟩ = .error noScreenMsg ∧
    capture_with_reused_buffer [⟨⟨0, 0, 1920, 1080⟩, none, none⟩]
        ⟨5000, 5000, 100, 100⟩ = .error noScreenMsg := by
  refine ⟨by decide, by decide⟩

/-- C8, amended: in the multi-screen path a failed OS pixel read or a
failed PNG encoding on an overlapping monitor merely makes the loop
continue with the remaining monitors (the error is printed and
dropped), and an exhausted loop fails with the same generic no-screen
error as the no-matching-monitor case; only the single-screen fallback
path surfaces distinct capture/encode error messages. -/
theorem capture_failure_falls_through
    (s : Screen) (bounds : CaptureBounds) (sx sy : Int)
    (hov : overlapsScreen s.display bounds sx sy = true)
    (hbig : ¬((clampToScreen s.display bounds sx sy).safe_width < 10 ∨
      (clampToScreen s.display bounds sx sy).safe_height < 10))
    (hfail : ¬(s.captureErr = none ∧ s.encodeErr = none)) :
    (∀ rest : List Screen,
      captureLoop bounds sx sy (s :: rest) = captureLoop bounds sx sy rest) ∧
    captureLoop bounds sx sy [] = .error noScreenMsg ∧
    (∀ (rest : List Screen) (d : DisplayInfo) (b : CaptureBounds) (e : String),
      ¬(min b.width
          (u32sub d.width (u32ofI32 (min (max b.x 0) ((d.width : Int) - (b.width : Int))))) < 10 ∨
        min b.height
          (u32sub d.height (u32ofI32 (min (max b.y 0) ((d.height : Int) - (b.height : Int))))) < 10) →
      capture_single_screen_fallback (⟨d, some e, none⟩ :: rest) b =
        .error ("Screen capture failed: " ++ e)) := by
  refine ⟨fun rest => captureLoop_skip_os_failure bounds sx sy s rest hov hbig hfail,
    rfl, ?_⟩
  intro rest d b e hsz
  have hb : (decide (min b.width
        (u32sub d.width (u32ofI32 (min (max b.x 0) ((d.width : Int) - (b.width : Int))))) < 10) ||
      decide (min b.height
        (u32sub d.height (u32ofI32 (min (max b.y 0) ((d.height : Int) - (b.height : Int))))) < 10)) = false := by
    simp only [not_or] at hsz
    simp [hsz.1, hsz.2]
  conv_lhs => unfold capture_single_screen_fallback
  dsimp only
  rw [if_neg (by rw [hb]; exact Bool.false_ne_true)]

/-- Witness for the amended C8: a failing pixel read on the only
overlapping monitor falls through to the empty remainder of the loop
and ends in the generic no-screen error, while the fallback path
surfaces the distinct capture-failed message. -/
theorem capture_failure_falls_through_witness :
    captureLoop ⟨0, 0, 100, 100⟩ 0 0 [⟨⟨0, 0, 1920, 1080⟩, some "os read failed", none⟩] =
      captureLoop ⟨0, 0, 100, 100⟩ 0 0 [] ∧
    captureLoop ⟨0, 0, 100, 100⟩ 0 0 [] = .error noScreenMsg ∧
    capture_single_screen_fallback [⟨⟨0, 0, 1920, 1080⟩, some "os read failed", none⟩]
        ⟨0, 0, 100, 100⟩ = .error ("Screen capture failed: " ++ "os read failed") :=
  have h := capture_failure_falls_through
    ⟨⟨0, 0, 1920, 1080⟩, some "os read failed", none⟩ ⟨0, 0, 100, 100⟩ 0 0
    (by decide) (by decide) (by decide)
  ⟨h.1 [], h.2.1,
    h.2.2 [] ⟨0, 0, 1920, 1080⟩ ⟨0, 0, 100, 100⟩ "os read failed" (by decide)⟩

/-! ## Cache lemmas for C4 and C10 -/

lemma capture_fresh_ok (st : CacheState) (key : BoundsKey) (now : Nat) (d : String) :
    (capture_fresh st key now (.ok ()) (.ok d)).result = .ok d ∧
    (capture_fresh st key now (.ok ()) (.ok d)).did_capture = true ∧
    (capture_fresh st key now (.ok ()) (.ok d)).state.cache = add_to_cache st.cache key d now := by
  unfold capture_fresh
  rcases hsi : st.screen_info_at with _ | t
  · simp [hsi]
  · rcases hdec : decide (60 < now - t) with _ | _ <;> simp [hsi, hdec]

lemma capture_fresh_err (st : CacheState) (key : BoundsKey) (now : Nat) (e : String) :
    (capture_fresh st key now (.ok ()) (.error e)).result = .error e ∧
    (capture_fresh st key now (.ok ()) (.error e)).did_capture = true ∧
    (capture_fresh st key now (.ok ()) (.error e)).state.cache = st.cache := by
  unfold capture_fresh
  rcases hsi : st.screen_info_at with _ | t
  · simp [hsi]
  · rcases hdec : decide (60 < now - t) with _ | _ <;> simp [hsi, hdec]

lemma lookup_insertEntry_self (cache : Cache) (key : BoundsKey) (v : CachedCapture) :
    lookup (insertEntry cache key v) key = some v := by
  unfold lookup insertEntry
  rw [List.find?_cons_of_pos _ (by simp)]
  rfl

lemma length_filter_le_cache (cache : Cache) (p : BoundsKey × CachedCapture → Bool) :
    (cache.filter p).length ≤ cache.length :=
  List.length_filter_le p cache

lemma size_filter_le (cache : Cache) (p : BoundsKey × CachedCapture → Bool) :
    get_total_cache_size (cache.filter p) ≤ get_total_cache_size cache := by
  induction cache with
  | nil => exact le_refl _
  | cons e rest ih =>
    unfold get_total_cache_size at ih ⊢
    rcases hp : p e with _ | _ <;> simp [List.filter_cons, hp]
    · omega
    · omega

lemma removeKey_length_lt (cache : Cache) (key : BoundsKey) (v : CachedCapture)
    (h : lookup cache key = some v) : (removeKey cache key).length < cache.length := by
  induction cache with
  | nil => simp [lookup] at h
  | cons e rest ih =>
    by_cases hk : e.1 = key
    · have : (removeKey rest key).length ≤ rest.length := length_filter_le_cache rest _
      have hdrop : removeKey (e :: rest) key = removeKey rest key := by
        unfold removeKey
        rw [List.filter_cons_of_neg (by simp [hk])]
      rw [hdrop]
      simp only [List.length_cons]
      omega
    · have hfind : lookup rest key = some v := by
        unfold lookup at h ⊢
        rwa [List.find?_cons_of_neg _ (by simp [hk])] at h
      have hkeep : removeKey (e :: rest) key = e :: removeKey rest key := by
        unfold removeKey
        rw [List.filter_cons_of_pos (by simp [hk])]
      rw [hkeep]
      simp only [List.length_cons]
      exact Nat.succ_lt_succ (ih hfind)

lemma removeKey_size (cache : Cache) (key : BoundsKey) (v : CachedCapture)
    (h : lookup cache key = some v) :
    get_total_cache_size (removeKey cache key) + v.size_bytes ≤
      get_total_cache_size cache := by
  induction cache with
  | nil => simp [lookup] at h
  | cons e rest ih =>
    by_cases hk : e.1 = key
    · have hv : v = e.2 := by
        unfold lookup at h
        rw [List.find?_cons_of_pos _ (by simp [hk])] at h
        simp at h
        exact h.symm
      have hdrop : removeKey (e :: rest) key = removeKey rest key := by
        unfold removeKey
        rw [List.filter_cons_of_neg (by simp [hk])]
      have hle := size_filter_le rest (fun x => decide (x.1 ≠ key))
      rw [hdrop, hv]
      unfold removeKey
      unfold get_total_cache_size at hle ⊢
      simp only [List.map_cons, List.sum_cons]
      omega
    · have hfind : lookup rest key = some v := by
        unfold lookup at h ⊢
        rwa [List.find?_cons_of_neg _ (by simp [hk])] at h
      have hkeep : removeKey (e :: rest) key = e :: removeKey rest key := by
        unfold removeKey
        rw [List.filter_cons_of_pos (by simp [hk])]
      have := ih hfind
      rw [hkeep]
      unfold get_total_cache_size at this ⊢
      simp only [List.map_cons, List.sum_cons]
      omega

/-! ## C4: cache idempotence within the TTL -/

lemma capture_optimized_hit (s : CacheState) (bounds : CaptureBounds) (t2 : Nat)
    (si : Except String Unit) (cap : Except String String) (v : CachedCapture)
    (hs : lookup s.cache (boundsKeyOf bounds) = some v)
    (httl : t2 - v.captured_at < cache_ttl) :
    capture_optimized s bounds t2 si cap = ⟨.ok v.data, s, false⟩ := by
  unfold capture_optimized
  dsimp only
  rw [hs]
  dsimp only
  rw [if_pos httl]

/-- C4: starting from a state where the rectangle is not cached, a first
`get_or_capture` call whose capture succeeds with payload `d` returns
`d` and performs the one underlying OS read; a second call with the very
same rectangle while the entry's age is below the 30-second TTL returns
the byte-identical payload `d`, leaves the state untouched, and performs
no OS read at all — whatever outcomes the second call's environment
would have produced. -/
theorem cache_idempotent_within_ttl
    (st : CacheState) (bounds : CaptureBounds) (t1 t2 : Nat) (d : String)
    (si2 : Except String Unit) (cap2 : Except String String)
    (hmiss : lookup st.cache (boundsKeyOf bounds) = none)
    (httl : t2 - t1 < cache_ttl) :
    (capture_optimized st bounds t1 (.ok ()) (.ok d)).result = .ok d ∧
    (capture_optimized st bounds t1 (.ok ()) (.ok d)).did_capture = true ∧
    (capture_optimized (capture_optimized st bounds t1 (.ok ()) (.ok d)).state
        bounds t2 si2 cap2).result = .ok d ∧
    (capture_optimized (capture_optimized st bounds t1 (.ok ()) (.ok d)).state
        bounds t2 si2 cap2).state =
      (capture_optimized st bounds t1 (.ok ()) (.ok d)).state ∧
    (capture_optimized (capture_optimized st bounds t1 (.ok ()) (.ok d)).state
        bounds t2 si2 cap2).did_capture = false := by
  have h1 : capture_optimized st bounds t1 (.ok ()) (.ok d) =
      capture_fresh st (boundsKeyOf bounds) t1 (.ok ()) (.ok d) := by
    unfold capture_optimized
    dsimp only
    rw [hmiss]
  have hfresh := capture_fresh_ok st (boundsKeyOf bounds) t1 d
  have hl2 : lookup (capture_optimized st bounds t1 (.ok ()) (.ok d)).state.cache
      (boundsKeyOf bounds) = some ⟨d, t1, d.length⟩ := by
    rw [h1, hfresh.2.2]
    unfold add_to_cache
    exact lookup_insertEntry_self _ _ _
  have h2 := capture_optimized_hit (capture_optimized st bounds t1 (.ok ()) (.ok d)).state
    bounds t2 si2 cap2 ⟨d, t1, d.length⟩ hl2 httl
  refine ⟨by rw [h1]; exact hfresh.1, by rw [h1]; exact hfresh.2.1, ?_, ?_, ?_⟩
  · rw [h2]
  · rw [h2]
  · rw [h2]

/-- Witness for C4: from the empty cache, capturing the same rectangle
at times 0 and 10 returns the same payload once from the OS and once
from the cache (the second call's environment is a failing capture,
which is never consulted). -/
theorem cache_idempotent_within_ttl_witness :
    (capture_optimized ⟨[], none⟩ ⟨0, 0, 100, 100⟩ 0 (.ok ()) (.ok "payload")).result =
      .ok "payload" ∧
    (capture_optimized ⟨[], none⟩ ⟨0, 0, 100, 100⟩ 0 (.ok ()) (.ok "payload")).did_capture =
      true ∧
    (capture_optimized (capture_optimized ⟨[], none⟩ ⟨0, 0, 100, 100⟩ 0 (.ok ())
        (.ok "payload")).state ⟨0, 0, 100, 100⟩ 10 (.error "down") (.error "fail")).result =
      .ok "payload" ∧
    (capture_optimized (capture_optimized ⟨[], none⟩ ⟨0, 0, 100, 100⟩ 0 (.ok ())
        (.ok "payload")).state ⟨0, 0, 100, 100⟩ 10 (.error "down") (.error "fail")).state =
      (capture_optimized ⟨[], none⟩ ⟨0, 0, 100, 100⟩ 0 (.ok ()) (.ok "payload")).state ∧
    (capture_optimized (capture_optimized ⟨[], none⟩ ⟨0, 0, 100, 100⟩ 0 (.ok ())
        (.ok "payload")).state ⟨0, 0, 100, 100⟩ 10 (.error "down") (.error "fail")).did_capture =
      false :=
  cache_idempotent_within_ttl ⟨[], none⟩ ⟨0, 0, 100, 100⟩ 0 10 "payload"
    (.error "down") (.error "fail") (by decide) (by decide)

/-! ## C10: a failed capture still removes the expired entry -/

/-- C10: `get_or_capture` is not atomic on its error path — when the
lookup finds an entry whose age has reached the TTL and the fresh
capture then fails, the call returns the capture error but the expired
entry has already been removed, so the cache's entry count strictly
decreases and its total bytes drop by (at least) the expired entry's
size. -/
theorem failed_capture_after_expiry_shrinks_cache
    (st : CacheState) (bounds : CaptureBounds) (now : Nat) (e : String)
    (cached : CachedCapture)
    (hfound : lookup st.cache (boundsKeyOf bounds) = some cached)
    (hexp : ¬(now - cached.captured_at < cache_ttl)) :
    (capture_optimized st bounds now (.ok ()) (.error e)).result = .error e ∧
    (capture_optimized st bounds now (.ok ()) (.error e)).state.cache =
      removeKey st.cache (boundsKeyOf bounds) ∧
    (capture_optimized st bounds now (.ok ()) (.error e)).state.cache.length <
      st.cache.length ∧
    get_total_cache_size (capture_optimized st bounds now (.ok ()) (.error e)).state.cache +
      cached.size_bytes ≤ get_total_cache_size st.cache ∧
    (capture_optimized st bounds now (.ok ()) (.error e)).did_capture = true := by
  have h1 : capture_optimized st bounds now (.ok ()) (.error e) =
      capture_fresh ⟨removeKey st.cache (boundsKeyOf bounds), st.screen_info_at⟩
        (boundsKeyOf bounds) now (.ok ()) (.error e) := by
    unfold capture_optimized
    dsimp only
    rw [hfound]
    dsimp only
    rw [if_neg hexp]
  have hfresh := capture_fresh_err
    ⟨removeKey st.cache (boundsKeyOf bounds), st.screen_info_at⟩ (boundsKeyOf bounds) now e
  have hcache : (capture_optimized st bounds now (.ok ()) (.error e)).state.cache =
      removeKey st.cache (boundsKeyOf bounds) := by
    rw [h1]
    exact hfresh.2.2
  refine ⟨by rw [h1]; exact hfresh.1, hcache, ?_, ?_, by rw [h1]; exact hfresh.2.1⟩
  · rw [hcache]
    exact removeKey_length_lt st.cache (boundsKeyOf bounds) cached hfound
  · rw [hcache]
    exact removeKey_size st.cache (boundsKeyOf bounds) cached hfound

/-- Witness for C10: a cache holding one 7-byte entry captured at time 0
is queried at time 30 (the TTL boundary) with a failing capture: the
call errors, yet the entry is gone — count drops from 1 to 0 and total
bytes from 7 to 0. -/
theorem failed_capture_after_expiry_shrinks_cache_witness :
    (capture_optimized ⟨[(⟨0, 0, 100, 100⟩, ⟨"olddata", 0, 7⟩)], some 0⟩
        ⟨0, 0, 100, 100⟩ 30 (.ok ()) (.error "backend down")).result =
      .error "backend down" ∧
    (capture_optimized ⟨[(⟨0, 0, 100, 100⟩, ⟨"olddata", 0, 7⟩)], some 0⟩
        ⟨0, 0, 100, 100⟩ 30 (.ok ()) (.error "backend down")).state.cache =
      removeKey [(⟨0, 0, 100, 100⟩, ⟨"olddata", 0, 7⟩)] ⟨0, 0, 100, 100⟩ ∧
    (capture_optimized ⟨[(⟨0, 0, 100, 100⟩, ⟨"olddata", 0, 7⟩)], some 0⟩
        ⟨0, 0, 100, 100⟩ 30 (.ok ()) (.error "backend down")).state.cache.length < 1 ∧
    get_total_cache_size (capture_optimized ⟨[(⟨0, 0, 100, 100⟩, ⟨"olddata", 0, 7⟩)], some 0⟩
        ⟨0, 0, 100, 100⟩ 30 (.ok ()) (.error "backend down")).state.cache + 7 ≤
      get_total_cache_size [(⟨0, 0, 100, 100⟩, ⟨"olddata", 0, 7⟩)] ∧
    (capture_optimized ⟨[(⟨0, 0, 100, 100⟩, ⟨"olddata", 0, 7⟩)], some 0⟩
        ⟨0, 0, 100, 100⟩ 30 (.ok ()) (.error "backend down")).did_capture = true :=
  failed_capture_after_expiry_shrinks_cache
    ⟨[(⟨0, 0, 100, 100⟩, ⟨"olddata", 0, 7⟩)], some 0⟩ ⟨0, 0, 100, 100⟩ 30
    "backend down" ⟨"olddata", 0, 7⟩ (by decide) (by decide)

/-! ## C9: the overlay surface is created at most once and never dropped -/

lemma overlayStep_of_some (m : OverlayManager) (h : Nat)
    (hm : m.overlay_window = some h) (op : OverlayOp) :
    (overlayStep m op).1.overlay_window = some h ∧ (overlayStep m op).2 = false := by
  rcases op with ⟨nh, ok, now⟩ | ⟨ok⟩
  · rcases hok : ok with _ | _ <;>
      simp [overlayStep, show_selection_overlay, hm, hok]
  · rcases hok : ok with _ | _ <;>
      simp [overlayStep, hide_overlay, hm, hok]

lemma overlayStep_of_none (m : OverlayManager)
    (hm : m.overlay_window = none) (op : OverlayOp) :
    ((overlayStep m op).1.overlay_window = none ∧ (overlayStep m op).2 = false) ∨
    (∃ h, (overlayStep m op).1.overlay_window = some h ∧ (overlayStep m op).2 = true) := by
  rcases op with ⟨nh, ok, now⟩ | ⟨ok⟩
  · rcases hok : ok with _ | _
    · exact .inl (by simp [overlayStep, show_selection_overlay, hm, hok])
    · exact .inr ⟨nh, by simp [overlayStep, show_selection_overlay, hm, hok]⟩
  · exact .inl (by simp [overlayStep, hide_overlay, hm])

lemma runOverlay_persist : ∀ (ops : List OverlayOp) (m : OverlayManager)
    (created : Nat) (h : Nat), m.overlay_window = some h →
    (runOverlay m created ops).1.overlay_window = some h ∧
    (runOverlay m created ops).2 = created
  | [], _, _, _, hm => ⟨hm, rfl⟩
  | op :: rest, m, created, h, hm => by
    have hstep := overlayStep_of_some m h hm op
    unfold runOverlay
    dsimp only
    rw [hstep.2]
    simp only [Bool.false_eq_true, if_false, Nat.add_zero]
    exact runOverlay_persist rest (overlayStep m op).1 created h hstep.1

lemma runOverlay_inv : ∀ (ops : List OverlayOp) (m : OverlayManager) (created : Nat),
    (m.overlay_window = none ∧ created = 0) ∨
      (∃ h, m.overlay_window = some h ∧ created = 1) →
    ((runOverlay m created ops).1.overlay_window = none ∧ (runOverlay m created ops).2 = 0) ∨
      (∃ h, (runOverlay m created ops).1.overlay_window = some h ∧
        (runOverlay m created ops).2 = 1)
  | [], _, _, hinv => hinv
  | op :: rest, m, created, hinv => by
    rcases hinv with ⟨hnone, hc⟩ | ⟨h, hsome, hc⟩
    · subst hc
      rcases overlayStep_of_none m hnone op with ⟨hn, hf⟩ | ⟨h, hs, ht⟩
      · have := runOverlay_inv rest (overlayStep m op).1 (0 + if (overlayStep m op).2 then 1 else 0)
          (.inl ⟨hn, by rw [hf]; rfl⟩)
        unfold runOverlay
        exact this
      · have := runOverlay_inv rest (overlayStep m op).1 (0 + if (overlayStep m op).2 then 1 else 0)
          (.inr ⟨h, hs, by rw [ht]; rfl⟩)
        unfold runOverlay
        exact this
    · subst hc
      have hstep := overlayStep_of_some m h hsome op
      have := runOverlay_inv rest (overlayStep m op).1 (1 + if (overlayStep m op).2 then 1 else 0)
        (.inr ⟨h, hstep.1, by rw [hstep.2]; rfl⟩)
      unfold runOverlay
      exact this

/-- C9: over the whole process lifetime the overlay pool creates at most
one surface and never replaces or drops the stored handle: (i) any
operation sequence from the fresh manager performs at most one surface
creation; (ii) once some sequence has left the manager holding handle
`h`, every continuation still holds exactly `h`; (iii) a `show` on a
manager that already holds a handle keeps that handle and creates
nothing (reuse); (iv) a `hide` never touches the stored handle and
creates nothing. -/
theorem overlay_surface_created_at_most_once :
    (∀ ops : List OverlayOp, (runOverlay OverlayManager.new 0 ops).2 ≤ 1) ∧
    (∀ (ops more : List OverlayOp) (h : Nat),
      (runOverlay OverlayManager.new 0 ops).1.overlay_window = some h →
      (runOverlay OverlayManager.new 0 (ops ++ more)).1.overlay_window = some h) ∧
    (∀ (m : OverlayManager) (h nh : Nat) (ok : Bool) (now : Nat),
      m.overlay_window = some h →
      (overlayStep m (.show nh ok now)).1.overlay_window = some h ∧
      (overlayStep m (.show nh ok now)).2 = false) ∧
    (∀ (m : OverlayManager) (ok : Bool),
      (overlayStep m (.hide ok)).1.overlay_window = m.overlay_window ∧
      (overlayStep m (.hide ok)).2 = false) := by
  have happend : ∀ (ops more : List OverlayOp) (m : OverlayManager) (created : Nat),
      runOverlay m created (ops ++ more) =
        runOverlay (runOverlay m created ops).1 (runOverlay m created ops).2 more := by
    intro ops
    induction ops with
    | nil => intro more m created; rfl
    | cons op rest ih =>
      intro more m created
      exact ih more (overlayStep m op).1 _
  refine ⟨?_, ?_, ?_, ?_⟩
  · intro ops
    rcases runOverlay_inv ops OverlayManager.new 0 (.inl ⟨rfl, rfl⟩) with ⟨_, hz⟩ | ⟨_, _, ho⟩
    · omega
    · omega
  · intro ops more h hsome
    rw [happend ops more OverlayManager.new 0]
    exact (runOverlay_persist more _ _ h hsome).1
  · intro m h nh ok now hm
    exact overlayStep_of_some m h hm (.show nh ok now)
  · intro m ok
    rcases hm : m.overlay_window with _ | h
    · rcases (overlayStep_of_none m hm (.hide ok)) with ⟨hn, hf⟩ | ⟨h, hs, ht⟩
      · exact ⟨hn, hf⟩
      · exact absurd ht (by simp [overlayStep, hide_overlay, hm])
    · have := overlayStep_of_some m h hm (.hide ok)
      exact ⟨this.1, this.2⟩

/-- Witness for C9: showing once (creating handle 7), hiding and showing
again leaves the same handle 7 in place with exactly one creation. -/
theorem overlay_surface_created_at_most_once_witness :
    (runOverlay OverlayManager.new 0 [.show 7 true 0]).2 ≤ 1 ∧
    (runOverlay OverlayManager.new 0
        ([.show 7 true 0] ++ [.hide true, .show 9 true 5])).1.overlay_window = some 7 :=
  ⟨overlay_surface_created_at_most_once.1 [.show 7 true 0],
   overlay_surface_created_at_most_once.2.1 [.show 7 true 0] [.hide true, .show 9 true 5] 7
     (by decide)⟩

/-! ## C3: the eviction invariant -/

lemma keysNe_symmetric : Symmetric keysNe := fun _ _ h => Ne.symm h

/-- Lemma: `keysToEvict` collects exactly the keys of the shortest prefix of
the (sorted) entry list whose accumulated size reaches `needed`, or of
the whole list when the total falls short. -/
lemma keysToEvict_spec : ∀ (l : Cache) (needed freed : Nat),
    ∃ p q, l = p ++ q ∧ keysToEvict needed l freed = p.map (·.1) ∧
      (needed ≤ freed + get_total_cache_size p ∨ q = [])
  | [], needed, freed => ⟨[], [], rfl, rfl, .inr rfl⟩
  | (k, c) :: rest, needed, freed => by
    by_cases hstop : needed ≤ freed + c.size_bytes
    · refine ⟨[(k, c)], rest, rfl, ?_, .inl ?_⟩
      · unfold keysToEvict
        rw [if_pos hstop]
        rfl
      · unfold get_total_cache_size
        simpa using hstop
    · obtain ⟨p', q', hsplit, hkeys, hor⟩ := keysToEvict_spec rest needed (freed + c.size_bytes)
      refine ⟨(k, c) :: p', q', by rw [hsplit]; rfl, ?_, ?_⟩
      · unfold keysToEvict
        rw [if_neg hstop, hkeys]
        rfl
      · rcases hor with h | h
        · refine .inl ?_
          unfold get_total_cache_size at h ⊢
          simp only [List.map_cons, List.sum_cons]
          omega
        · exact .inr h

/-- Removing (by key) the entries of a prefix from a uniquely-keyed list
leaves exactly the suffix. -/
lemma filter_not_mem_prefix_keys (p q : Cache)
    (hu : (p ++ q).Pairwise keysNe) :
    (p ++ q).filter (fun e => decide (e.1 ∉ p.map (·.1))) = q := by
  rw [List.filter_append]
  have hp : p.filter (fun e => decide (e.1 ∉ p.map (·.1))) = [] := by
    rw [List.filter_eq_nil_iff]
    intro a ha
    simp only [decide_eq_true_eq, not_not]
    exact List.mem_map_of_mem _ ha
  have hq : q.filter (fun e => decide (e.1 ∉ p.map (·.1))) = q := by
    rw [List.filter_eq_self]
    intro a ha
    simp only [decide_eq_true_eq]
    intro hmem
    obtain ⟨b, hb, hkey⟩ := List.mem_map.mp hmem
    exact ((List.pairwise_append.mp hu).2.2 b hb a ha) hkey
  rw [hp, hq]
  rfl

lemma cache_size_append (p q : Cache) :
    get_total_cache_size (p ++ q) = get_total_cache_size p + get_total_cache_size q := by
  unfold get_total_cache_size
  rw [List.map_append, List.sum_append]

lemma cache_size_perm {l₁ l₂ : Cache} (h : l₁.Perm l₂) :
    get_total_cache_size l₁ = get_total_cache_size l₂ := by
  unfold get_total_cache_size
  exact (h.map (fun e => e.2.size_bytes)).sum_eq

/-- The eviction pass, applied to a uniquely-keyed cache: the result is
(a permutation of) the suffix of the age-sorted entries left after the
removed prefix; consequently it either frees at least `needed` bytes or
empties the cache, and every removed entry is at least as old as every
surviving entry. -/
lemma evict_oldest_entries_spec (cache : Cache) (needed : Nat)
    (hu : cache.Pairwise keysNe) :
    (get_total_cache_size (evict_oldest_entries cache needed) + needed ≤
        get_total_cache_size cache ∨
      evict_oldest_entries cache needed = []) ∧
    (∀ e ∈ cache, e ∉ evict_oldest_entries cache needed →
      ∀ e' ∈ evict_oldest_entries cache needed,
        e.2.captured_at ≤ e'.2.captured_at) := by
  have hperm : (sortedByAge cache).Perm cache := List.perm_insertionSort byAge cache
  have hsorted : List.Sorted byAge (sortedByAge cache) :=
    List.sorted_insertionSort byAge cache
  have hus : (sortedByAge cache).Pairwise keysNe :=
    (List.Perm.pairwise_iff (fun hxy => keysNe_symmetric hxy) hperm).mpr hu
  obtain ⟨p, q, hsplit, hkeys, hor⟩ := keysToEvict_spec (sortedByAge cache) needed 0
  have hfilter_eq : evict_oldest_entries cache needed =
      cache.filter (fun e => decide (e.1 ∉ p.map (·.1))) := by
    unfold evict_oldest_entries
    rw [hkeys]
  have hfperm : (cache.filter (fun e => decide (e.1 ∉ p.map (·.1)))).Perm q := by
    have h1 := (hperm.filter (fun e => decide (e.1 ∉ p.map (·.1)))).symm
    rw [hsplit] at hus
    rw [hsplit, filter_not_mem_prefix_keys p q hus] at h1
    exact h1
  have hsize_c : get_total_cache_size cache =
      get_total_cache_size p + get_total_cache_size q := by
    rw [← cache_size_perm hperm, hsplit, cache_size_append]
  have hsize_e : get_total_cache_size (evict_oldest_entries cache needed) =
      get_total_cache_size q := by
    rw [hfilter_eq]
    exact cache_size_perm hfperm
  constructor
  · rcases hor with h | h
    · refine .inl ?_
      rw [hsize_e, hsize_c]
      omega
    · refine .inr ?_
      rw [hfilter_eq]
      exact (hfperm.trans (h ▸ List.Perm.refl [])).eq_nil
  · intro e he hrem e' he'
    have hesort : e ∈ p ++ q := by
      rw [← hsplit]
      exact hperm.mem_iff.mpr he
    have hekey : e.1 ∈ p.map (·.1) := by
      by_contra hk
      exact hrem (by
        rw [hfilter_eq]
        exact List.mem_filter.mpr ⟨he, by simpa using hk⟩)
    have hep : e ∈ p := by
      rcases List.mem_append.mp hesort with h | h
      · exact h
      · obtain ⟨b, hb, hkey⟩ := List.mem_map.mp hekey
        rw [hsplit] at hus
        exact absurd hkey ((List.pairwise_append.mp hus).2.2 b hb e h)
    have he'q : e' ∈ q := by
      rw [hfilter_eq] at he'
      have hm := List.mem_filter.mp he'
      have he's : e' ∈ p ++ q := by
        rw [← hsplit]
        exact hperm.mem_iff.mpr hm.1
      rcases List.mem_append.mp he's with h | h
      · exact absurd (List.mem_map_of_mem _ h) (of_decide_eq_true hm.2)
      · exact h
    rw [hsplit] at hsorted
    exact (List.pairwise_append.mp hsorted).2.2 e hep e' he'q

lemma insertEntry_pairwise (cache : Cache) (key : BoundsKey) (v : CachedCapture)
    (hu : cache.Pairwise keysNe) : (insertEntry cache key v).Pairwise keysNe := by
  unfold insertEntry
  refine List.Pairwise.cons ?_ (hu.filter _)
  intro e he
  exact ((of_decide_eq_true (List.mem_filter.mp he).2).symm : keysNe (key, v) e)

lemma add_to_cache_pairwise (cache : Cache) (key : BoundsKey) (d : String) (now : Nat)
    (hu : cache.Pairwise keysNe) : (add_to_cache cache key d now).Pairwise keysNe := by
  unfold add_to_cache
  dsimp only
  refine insertEntry_pairwise _ key _ ?_
  split
  · unfold evict_oldest_entries
    exact hu.filter _
  · exact hu

lemma insertEntry_size_le (cache : Cache) (key : BoundsKey) (v : CachedCapture) :
    get_total_cache_size (insertEntry cache key v) ≤
      v.size_bytes + get_total_cache_size cache := by
  have hf := size_filter_le cache (fun e => decide (e.1 ≠ key))
  unfold insertEntry get_total_cache_size at hf ⊢
  simp only [List.map_cons, List.sum_cons]
  omega

/-- One `add_to_cache` call keeps the total within the 50 MB budget,
provided the cache respected it before and the new payload alone fits
into the budget. -/
lemma add_to_cache_budget (cache : Cache) (key : BoundsKey) (d : String) (now : Nat)
    (hu : cache.Pairwise keysNe)
    (hc : get_total_cache_size cache ≤ max_cache_size)
    (hd : d.length ≤ max_cache_size) :
    get_total_cache_size (add_to_cache cache key d now) ≤ max_cache_size := by
  unfold add_to_cache
  dsimp only
  by_cases hover : max_cache_size < get_total_cache_size cache + d.length
  · rw [if_pos hover]
    have hins := insertEntry_size_le (evict_oldest_entries cache d.length) key ⟨d, now, d.length⟩
    dsimp only at hins
    rcases (evict_oldest_entries_spec cache d.length hu).1 with h | h
    · omega
    · rw [h] at hins
      rw [h]
      have hz : get_total_cache_size ([] : Cache) = 0 := rfl
      omega
  · rw [if_neg hover]
    have hins := insertEntry_size_le cache key ⟨d, now, d.length⟩
    dsimp only at hins
    omega

lemma foldl_add_budget : ∀ (ops : List (BoundsKey × String × Nat)) (c : Cache),
    c.Pairwise keysNe → get_total_cache_size c ≤ max_cache_size →
    (∀ op ∈ ops, op.2.1.length ≤ max_cache_size) →
    get_total_cache_size
      (ops.foldl (fun cache op => add_to_cache cache op.1 op.2.1 op.2.2) c) ≤
      max_cache_size
  | [], _, _, hc, _ => hc
  | op :: rest, c, hu, hc, hsz =>
    foldl_add_budget rest (add_to_cache c op.1 op.2.1 op.2.2)
      (add_to_cache_pairwise c op.1 op.2.1 op.2.2 hu)
      (add_to_cache_budget c op.1 op.2.1 op.2.2 hu hc (hsz op (List.mem_cons_self _ _)))
      (fun o ho => hsz o (List.mem_cons_of_mem _ ho))

/-- C3: starting from the empty cache, any sequence of insertions whose
payload sizes are each at most `max_cache_size` leaves the total cached
bytes at or below `max_cache_size`; moreover, on a uniquely-keyed cache
one eviction pass either frees at least the requested bytes or empties
the cache, and it removes entries oldest-first — every removed entry's
`captured_at` is at most every survivor's. -/
theorem eviction_keeps_total_within_budget
    (ops : List (BoundsKey × String × Nat))
    (hsz : ∀ op ∈ ops, op.2.1.length ≤ max_cache_size) :
    get_total_cache_size
        (ops.foldl (fun cache op => add_to_cache cache op.1 op.2.1 op.2.2) []) ≤
      max_cache_size ∧
    (∀ (cache : Cache) (needed : Nat), cache.Pairwise keysNe →
      (get_total_cache_size (evict_oldest_entries cache needed) + needed ≤
          get_total_cache_size cache ∨
        evict_oldest_entries cache needed = []) ∧
      (∀ e ∈ cache, e ∉ evict_oldest_entries cache needed →
        ∀ e' ∈ evict_oldest_entries cache needed,
          e.2.captured_at ≤ e'.2.captured_at)) :=
  ⟨foldl_add_budget ops [] List.Pairwise.nil (Nat.zero_le _) hsz,
   fun cache needed hu => evict_oldest_entries_spec cache needed hu⟩

/-- Witness for C3: two concrete insertions stay within the budget, and
an eviction pass on a concrete two-entry cache frees the requested
5 bytes by dropping the older entry. -/
theorem eviction_keeps_total_within_budget_witness :
    get_total_cache_size
        (([(⟨0, 0, 10, 10⟩, "aaaa", 0), (⟨0, 0, 20, 20⟩, "bb", 1)] :
            List (BoundsKey × String × Nat)).foldl
          (fun cache op => add_to_cache cache op.1 op.2.1 op.2.2) []) ≤
      max_cache_size ∧
    (get_total_cache_size
        (evict_oldest_entries
          [(⟨0, 0, 1, 1⟩, ⟨"abc", 0, 3⟩), (⟨0, 0, 2, 2⟩, ⟨"defg", 5, 4⟩)] 5) + 5 ≤
      get_total_cache_size
        [(⟨0, 0, 1, 1⟩, ⟨"abc", 0, 3⟩), (⟨0, 0, 2, 2⟩, ⟨"defg", 5, 4⟩)] ∨
      evict_oldest_entries
        [(⟨0, 0, 1, 1⟩, ⟨"abc", 0, 3⟩), (⟨0, 0, 2, 2⟩, ⟨"defg", 5, 4⟩)] 5 = []) :=
  ⟨(eviction_keeps_total_within_budget
      [(⟨0, 0, 10, 10⟩, "aaaa", 0), (⟨0, 0, 20, 20⟩, "bb", 1)] (by decide)).1,
   ((eviction_keeps_total_within_budget [] (by decide)).2
      [(⟨0, 0, 1, 1⟩, ⟨"abc", 0, 3⟩), (⟨0, 0, 2, 2⟩, ⟨"defg", 5, 4⟩)] 5 (by decide)).1⟩

end FrameSense
